import Mathlib

/-!
Verification development for the resolution & reachability core of knip
(packages/knip/src/ProjectPrincipal.ts and
packages/knip/src/typescript/resolveModuleNames.ts).

Shallow embedding: the TypeScript functions are translated into Lean
definitions.  External collaborators that live outside the analysed
sources (node's `isBuiltin`, the `resolve` package, `ts.resolveModuleName`,
the filesystem, the path utilities in `util/path.ts`, `sanitizeSpecifier`
and `isStartsLikePackageName` from `util/modules.ts`, the gitignore
predicate) are abstracted as fields of an environment record, so the
theorems quantify over every possible behaviour of those collaborators.
-/

namespace Knip

/-- `String.startsWith`, embedded on the character lists so that ordinary
list reasoning applies. -/
def strStartsWith (s p : String) : Bool := decide (p.data <+: s.data)

/-- `String.endsWith`, embedded on the character lists. -/
def strEndsWith (s suf : String) : Bool := decide (suf.data <:+ s.data)

/-- Anchored-suffix replacement: the embedding of
`s.replace(/suf$/, rep)` for a literal suffix `suf`. -/
def replaceSuffix (s suf rep : String) : String :=
  if strEndsWith s suf then ⟨s.data.take (s.data.length - suf.data.length) ++ rep.data⟩
  else s

/-- `ts.ResolvedModuleFull`, restricted to the fields the analysed code
reads or constructs. -/
structure ResolvedModuleFull where
  resolvedFileName : String
  extension : String
  isExternalLibraryImport : Bool
  resolvedUsingTsExtension : Bool
deriving DecidableEq, Repr

/-- Environment of external collaborators used by
`createCustomModuleResolver` (typescript/resolveModuleNames.ts).
`resolveSync name basedir` models `resolve.sync` (`none` = throw);
`tsResolveSys`/`tsResolveCustom` model `ts.resolveModuleName` with
`ts.sys` resp. the custom `customSys`. -/
structure ResolverEnv where
  isBuiltin : String → Bool
  isInNodeModules : String → Bool
  sanitizeSpecifier : String → String
  resolveSync : String → String → Option String
  tsResolveSys : String → String → Option ResolvedModuleFull
  tsResolveCustom : String → String → Option ResolvedModuleFull
  existsSync : String → Bool
  isInternal : String → Bool
  dirname : String → String
  join : String → String → String
  isAbsolute : String → Bool
  extname : String → String
  toPosix : String → String

/-- Modelled from the spec: `isDeclarationFileExtension` from
typescript/ast-helpers.ts is not among the analysed sources; the spec and
the call sites fix it as recognising the `.d.ts`, `.d.mts` and `.d.cts`
type-declaration extensions. -/
def isDeclarationFileExtension (ext : String) : Bool :=
  ext == ".d.ts" || ext == ".d.mts" || ext == ".d.cts"

/-- Modelled from the spec: `isVirtualFilePath` from typescript/utils.ts is
not among the analysed sources; a virtual path is a synthesized
compiler-facing path, a registered non-native extension with `.ts`
appended (spec §4.2: same directory, swapped extension to a natively
parsable one). -/
def isVirtualFilePath (filePath : String) (virtualFileExtensions : List String) : Bool :=
  virtualFileExtensions.any fun ext => strEndsWith filePath (ext ++ ".ts")

/-- Modelled from the spec: `ensureRealFilePath` from typescript/utils.ts
is not among the analysed sources; it translates a virtual synthesized
path back to the corresponding real file path by dropping the appended
`.ts` (spec §4.1 step 4). -/
def ensureRealFilePath (filePath : String) (virtualFileExtensions : List String) : String :=
  if isVirtualFilePath filePath virtualFileExtensions then
    ⟨filePath.data.take (filePath.data.length - 3)⟩
  else filePath

/-- `fileExists` from typescript/resolveModuleNames.ts. -/
def fileExists (env : ResolverEnv) (name containingFile : String) :
    Option ResolvedModuleFull :=
  let resolvedFileName :=
    if env.isAbsolute name then name else env.join (env.dirname containingFile) name
  if env.existsSync resolvedFileName then
    some { resolvedFileName := resolvedFileName
           extension := env.extname name
           isExternalLibraryImport := false
           resolvedUsingTsExtension := false }
  else none

/-- The tail of `resolveModuleName`: the fall-through to the custom-sys
`ts.resolveModuleName` call and the `fileExists` last resort.  The second
component counts the resolution attempts performed (module-resolution
calls and filesystem probes). -/
def resolveViaCustomSys (env : ResolverEnv) (virtualFileExtensions : List String)
    (sanitizedSpecifier containingFile : String) : Option ResolvedModuleFull × Nat :=
  let customResolvedModule := env.tsResolveCustom sanitizedSpecifier containingFile
  match customResolvedModule with
  | none =>
      match fileExists env sanitizedSpecifier containingFile with
      | some m => (some m, 2)
      | none => (none, 2)
  | some c =>
      if !isVirtualFilePath c.resolvedFileName virtualFileExtensions then
        match fileExists env sanitizedSpecifier containingFile with
        | some m => (some m, 2)
        | none => (some c, 2)
      else
        (some { extension := ".js"
                resolvedFileName := ensureRealFilePath c.resolvedFileName virtualFileExtensions
                isExternalLibraryImport := c.isExternalLibraryImport
                resolvedUsingTsExtension := false }, 1)

/-- `resolveModuleName` from typescript/resolveModuleNames.ts.  Returns
the resolution result together with the number of resolution attempts
performed (calls to `resolve.sync`, `ts.resolveModuleName` and
`existsSync` probes), so that short-circuiting and caching claims can be
stated.  `ts.Extension.Js` is the string `".js"`. -/
def resolveModuleName (env : ResolverEnv) (virtualFileExtensions : List String)
    (name containingFile : String) : Option ResolvedModuleFull × Nat :=
  let sanitizedSpecifier := env.sanitizeSpecifier name
  -- No need to try and resolve builtins or externals, bail out
  if env.isBuiltin sanitizedSpecifier || env.isInNodeModules name then (none, 0)
  else
    match env.resolveSync sanitizedSpecifier (env.dirname containingFile) with
    | some resolved =>
        let resolvedFileName := env.toPosix resolved
        let ext := env.extname resolved
        let extension := if virtualFileExtensions.contains ext then ".js" else ext
        (some { resolvedFileName := resolvedFileName
                extension := extension
                isExternalLibraryImport := env.isInNodeModules resolvedFileName
                resolvedUsingTsExtension := false }, 1)
    | none =>
        -- Intentional slip-through, plenty of cases left in TS context
        let tsResolvedModule := env.tsResolveSys sanitizedSpecifier containingFile
        match tsResolvedModule with
        | some m =>
            if isDeclarationFileExtension m.extension && env.isInternal m.resolvedFileName then
              if m.extension == ".d.mts" then
                (some { resolvedFileName := replaceSuffix m.resolvedFileName ".d.mts" ".mjs"
                        extension := ".mjs"
                        isExternalLibraryImport := false
                        resolvedUsingTsExtension := false }, 2)
              else if m.extension == ".d.cts" then
                (some { resolvedFileName := replaceSuffix m.resolvedFileName ".d.cts" ".cjs"
                        extension := ".cjs"
                        isExternalLibraryImport := false
                        resolvedUsingTsExtension := false }, 2)
              else
                let base := replaceSuffix m.resolvedFileName ".d.ts" ""
                let baseExt := env.extname base
                if baseExt != "" && virtualFileExtensions.contains baseExt then
                  (some { resolvedFileName := ensureRealFilePath base virtualFileExtensions
                          extension := ".js"
                          isExternalLibraryImport := false
                          resolvedUsingTsExtension := false }, 2)
                else
                  match fileExists env (base ++ ".js") containingFile with
                  | some mod => (some mod, 3)
                  | none =>
                      match fileExists env (base ++ ".jsx") containingFile with
                      | some mod => (some mod, 4)
                      | none => (some m, 4)
            else if !isVirtualFilePath m.resolvedFileName virtualFileExtensions then
              (some m, 2)
            else
              let r := resolveViaCustomSys env virtualFileExtensions sanitizedSpecifier containingFile
              (r.1, 2 + r.2)
        | none =>
            let r := resolveViaCustomSys env virtualFileExtensions sanitizedSpecifier containingFile
            (r.1, 2 + r.2)

/-- The module-level `resolutionCache` of typescript/resolveModuleNames.ts:
a map from composite key to a resolved module or `undefined`, embedded as
an association list (first binding wins, like `Map.get`). -/
def ResolutionCache := List (String × Option ResolvedModuleFull)

/-- Cache lookup, `resolutionCache.has(key)` / `resolutionCache.get(key)`
combined: `some r` iff the key is present with stored value `r`. -/
def cacheFind? (cache : ResolutionCache) (key : String) :
    Option (Option ResolvedModuleFull) :=
  match cache with
  | [] => none
  | (k, v) :: rest => if k == key then some v else cacheFind? rest key

/-- The composite cache key of `resolveModuleNames`. -/
def cacheKey (env : ResolverEnv) (moduleName containingFile : String) : String :=
  if strStartsWith moduleName "." then env.join (env.dirname containingFile) moduleName
  else containingFile ++ ":" ++ moduleName

/-- One iteration of the `moduleNames.map` body of `resolveModuleNames`:
returns the result, the updated cache, and the number of invocations of
the underlying `resolveModuleName` step (0 on a cache hit, 1 otherwise). -/
def resolveOneCached (env : ResolverEnv) (virtualFileExtensions : List String)
    (cache : ResolutionCache) (moduleName containingFile : String) :
    Option ResolvedModuleFull × ResolutionCache × Nat :=
  let key := cacheKey env moduleName containingFile
  match cacheFind? cache key with
  | some cached => (cached, cache, 0)
  | none =>
      let resolvedModule :=
        (resolveModuleName env virtualFileExtensions moduleName containingFile).1
      (resolvedModule, (key, resolvedModule) :: cache, 1)

/-- `resolveModuleNames` from typescript/resolveModuleNames.ts: maps the
cached single-name resolution over the list of module names, threading
the module-level cache; the final component counts invocations of
`resolveModuleName`. -/
def resolveModuleNames (env : ResolverEnv) (virtualFileExtensions : List String)
    (moduleNames : List String) (containingFile : String) (cache : ResolutionCache) :
    List (Option ResolvedModuleFull) × ResolutionCache × Nat :=
  match moduleNames with
  | [] => ([], cache, 0)
  | n :: rest =>
      let step := resolveOneCached env virtualFileExtensions cache n containingFile
      let tail := resolveModuleNames env virtualFileExtensions rest containingFile step.2.1
      (step.1 :: tail.1, tail.2.1, step.2.2 + tail.2.2)

/-! ### ProjectPrincipal (src/ProjectPrincipal.ts) -/

/-- The collaborators and configuration of `ProjectPrincipal`:
`isInNodeModules`, `extname`, `dirname`, `join` from `util/path.ts`,
`sanitizeSpecifier` and `isStartsLikePackageName` from `util/modules.ts`,
the gitignore predicate, the accepted-extension set `this.extensions`,
the constant `FOREIGN_FILE_EXTENSIONS`, and `this.resolveModule` (the
backend resolver, `backend.resolveModuleNames([specifier], filePath)[0]`),
all abstracted as record fields. -/
structure PrincipalConfig where
  isInNodeModules : String → Bool
  extname : String → String
  extensions : Finset String
  isGitIgnored : String → Bool
  sanitizeSpecifier : String → String
  isStartsLikePackageName : String → Bool
  dirname : String → String
  join : String → String → String
  foreignFileExtensions : Finset String
  resolveModule : String → String → Option ResolvedModuleFull

/-- The mutable path sets of `ProjectPrincipal`. -/
structure PrincipalState where
  entryPaths : Finset String
  projectPaths : Finset String
  skipExportsAnalysis : Finset String
deriving DecidableEq

/-- The initial state: all three sets start empty. -/
def initialState : PrincipalState :=
  { entryPaths := ∅, projectPaths := ∅, skipExportsAnalysis := ∅ }

/-- `hasAcceptedExtension` from ProjectPrincipal.ts. -/
def hasAcceptedExtension (cfg : PrincipalConfig) (filePath : String) : Bool :=
  decide (cfg.extname filePath ∈ cfg.extensions)

/-- `addEntryPath` from ProjectPrincipal.ts; `skip` is
`options?.skipExportsAnalysis`. -/
def addEntryPath (cfg : PrincipalConfig) (st : PrincipalState) (filePath : String)
    (skip : Bool) : PrincipalState :=
  if !cfg.isInNodeModules filePath && hasAcceptedExtension cfg filePath then
    { entryPaths := insert filePath st.entryPaths
      projectPaths := insert filePath st.projectPaths
      skipExportsAnalysis :=
        if skip then insert filePath st.skipExportsAnalysis else st.skipExportsAnalysis }
  else st

/-- `addProjectPath` from ProjectPrincipal.ts. -/
def addProjectPath (cfg : PrincipalConfig) (st : PrincipalState) (filePath : String) :
    PrincipalState :=
  if !cfg.isInNodeModules filePath && hasAcceptedExtension cfg filePath then
    { st with projectPaths := insert filePath st.projectPaths }
  else st

/-- A call to one of the path-adding operations of `ProjectPrincipal`. -/
inductive GraphOp where
  | addEntry (filePath : String) (skip : Bool)
  | addProject (filePath : String)

/-- Apply one path-adding operation. -/
def applyOp (cfg : PrincipalConfig) (st : PrincipalState) : GraphOp → PrincipalState
  | .addEntry filePath skip => addEntryPath cfg st filePath skip
  | .addProject filePath => addProjectPath cfg st filePath

/-- Apply a sequence of path-adding operations, first to last. -/
def applyOps (cfg : PrincipalConfig) (st : PrincipalState) : List GraphOp → PrincipalState
  | [] => st
  | op :: rest => applyOps cfg (applyOp cfg st op) rest

/-- `getUsedResolvedFiles` from ProjectPrincipal.ts, after the program is
built: `projectPaths` filtered to the program's source-file names. -/
def getUsedResolvedFiles (projectPaths sourceFiles : Finset String) : Finset String :=
  projectPaths.filter fun filePath => filePath ∈ sourceFiles

/-- `getUnreferencedFiles` from ProjectPrincipal.ts: `projectPaths`
filtered to the paths the program's source files do not include. -/
def getUnreferencedFiles (projectPaths sourceFiles : Finset String) : Finset String :=
  projectPaths.filter fun filePath => filePath ∉ sourceFiles

/-- An `UnresolvedImport` record (types/imports.ts): the specifier plus
optional position metadata. -/
structure UnresolvedImport where
  specifier : String
  pos : Option Nat := none
  line : Option Nat := none
  col : Option Nat := none
deriving DecidableEq

/-- The accumulator mutated by the `unresolved.forEach` loop of
`analyzeSourceFile`: the principal's path sets, the `external` set and
the `unresolvedImports` set being built. -/
structure AnalyzeAcc where
  st : PrincipalState
  external : Finset String
  unresolvedImports : Finset UnresolvedImport

/-- The body of the `unresolved.forEach` loop of `analyzeSourceFile`
(ProjectPrincipal.ts), for one unresolved import of the file `filePath`. -/
def processUnresolvedImport (cfg : PrincipalConfig) (filePath : String)
    (acc : AnalyzeAcc) (unresolvedImport : UnresolvedImport) : AnalyzeAcc :=
  let specifier := unresolvedImport.specifier
  if strStartsWith specifier "http" then
    -- Ignore Deno style http import specifiers.
    acc
  else
    match cfg.resolveModule specifier filePath with
    | some resolvedModule =>
        if resolvedModule.isExternalLibraryImport then
          { acc with external := insert (cfg.sanitizeSpecifier specifier) acc.external }
        else
          if cfg.isGitIgnored resolvedModule.resolvedFileName then acc
          else { acc with st := addEntryPath cfg acc.st resolvedModule.resolvedFileName true }
    | none =>
        let sanitizedSpecifier := cfg.sanitizeSpecifier specifier
        if cfg.isStartsLikePackageName sanitizedSpecifier then
          -- Should never end up here; maybe a dependency that was not installed.
          { acc with external := insert sanitizedSpecifier acc.external }
        else
          if cfg.isGitIgnored (cfg.join (cfg.dirname filePath) sanitizedSpecifier) then acc
          else
            let ext := cfg.extname sanitizedSpecifier
            let hasIgnoredExtension := decide (ext ∈ cfg.foreignFileExtensions)
            if ext == "" || (ext != ".json" && !hasIgnoredExtension) then
              { acc with
                unresolvedImports := insert unresolvedImport acc.unresolvedImports }
            else acc

/-- The whole `unresolved.forEach` loop of `analyzeSourceFile`. -/
def processUnresolvedImports (cfg : PrincipalConfig) (filePath : String)
    (acc : AnalyzeAcc) : List UnresolvedImport → AnalyzeAcc
  | [] => acc
  | u :: rest =>
      processUnresolvedImports cfg filePath (processUnresolvedImport cfg filePath acc u) rest

/-! ### Symbol-usage oracle (`hasReferences`, `findUnusedMembers`) -/

/-- A `ts.ReferenceEntry`, restricted to the fields the analysed code
reads. -/
structure TsReference where
  isDefinition : Bool
  fileName : String
deriving DecidableEq

/-- A `ts.ReferencedSymbol`, restricted to its `references` list. -/
structure ReferencedSymbol where
  references : List TsReference
deriving DecidableEq

/-- The language service's `findReferences`, abstracted: `none` models
`undefined`. -/
structure OracleEnv where
  findReferences : String → Nat → Option (List ReferencedSymbol)

/-- A `SerializableExport` (types/exports.ts), restricted to the fields
`hasReferences` reads: position and jsDoc tags. -/
structure SerializableExport where
  pos : Nat
  jsDocTags : List String
deriving DecidableEq

/-- A `SerializableExportMember` (types/exports.ts), restricted to the
fields `findUnusedMembers` reads. -/
structure SerializableExportMember where
  pos : Nat
  jsDocTags : List String
deriving DecidableEq

/-- The reference-site file names for a symbol position:
`(referencedSymbols ?? []).flatMap(refs => refs.references)
 .filter(ref => !ref.isDefinition).map(ref => ref.fileName)`. -/
def referenceFiles (env : OracleEnv) (filePath : String) (pos : Nat) : List String :=
  let referencedSymbols := (env.findReferences filePath pos).getD []
  (((referencedSymbols.map ReferencedSymbol.references).flatten).filter
      fun ref => !ref.isDefinition).map TsReference.fileName

/-- `hasReferences` from ProjectPrincipal.ts. -/
def hasReferences (env : OracleEnv) (filePath : String)
    (exportedItem : SerializableExport) : Bool :=
  if exportedItem.jsDocTags.contains "@public" then false
  else
    let files := referenceFiles env filePath exportedItem.pos
    let externalRefs := files.filter fun f => f != filePath
    decide (externalRefs.length > 0)

/-- `findUnusedMembers` from ProjectPrincipal.ts. -/
def findUnusedMembers (env : OracleEnv) (filePath : String)
    (members : List SerializableExportMember) : List SerializableExportMember :=
  members.filter fun member =>
    if member.jsDocTags.contains "@public" then false
    else
      let files := referenceFiles env filePath member.pos
      let internalRefs := files.filter fun f => f == filePath
      let externalRefs := files.filter fun f => f != filePath
      externalRefs.length == 0 && internalRefs.length == 0

/-! ### Shared helper lemmas -/

/-- A specifier starting with `"http:"` in particular starts with
`"http"`. -/
lemma strStartsWith_http_of_httpColon (s : String)
    (h : strStartsWith s "http:" = true) : strStartsWith s "http" = true := by
  unfold strStartsWith at h ⊢
  rw [decide_eq_true_iff] at h ⊢
  have h1 : "http".data <+: "http:".data := ⟨[Char.ofNat 58], by decide⟩
  exact h1.trans h

/-- Looking up the key just inserted at the head of the cache returns the
inserted value. -/
lemma cacheFind?_cons_self (cache : ResolutionCache) (key : String)
    (v : Option ResolvedModuleFull) : cacheFind? ((key, v) :: cache) key = some v := by
  simp [cacheFind?]

/-! ### Claim theorems -/

/-- C3: resolving the same `(specifier, containingFile)` pair a second
time within one run returns a result identical to the first call, leaves
the resolution cache unchanged, and performs zero invocations of the
underlying `resolveModuleName` step (cache hit on repeat). -/
theorem resolveModuleNames_cached_idempotent (env : ResolverEnv)
    (vexts : List String) (cache : ResolutionCache) (s f : String) :
    (resolveModuleNames env vexts [s] f
        ((resolveModuleNames env vexts [s] f cache).2.1)).1 =
      (resolveModuleNames env vexts [s] f cache).1 ∧
    (resolveModuleNames env vexts [s] f
        ((resolveModuleNames env vexts [s] f cache).2.1)).2.2 = 0 ∧
    (resolveModuleNames env vexts [s] f
        ((resolveModuleNames env vexts [s] f cache).2.1)).2.1 =
      (resolveModuleNames env vexts [s] f cache).2.1 := by
  simp only [resolveModuleNames, resolveOneCached]
  cases h : cacheFind? cache (cacheKey env s f) with
  | some cached => simp [h]
  | none => simp [h, cacheFind?_cons_self]

/-- C4: after the program is built, `getUsedResolvedFiles` and
`getUnreferencedFiles` partition `projectPaths`: a project path is used
iff the program's source files include it, unreferenced iff they do not,
and every project path lands in exactly one of the two results. -/
theorem used_unreferenced_partition (projectPaths sourceFiles : Finset String)
    (p : String) :
    (p ∈ getUsedResolvedFiles projectPaths sourceFiles ↔
        p ∈ projectPaths ∧ p ∈ sourceFiles) ∧
    (p ∈ getUnreferencedFiles projectPaths sourceFiles ↔
        p ∈ projectPaths ∧ p ∉ sourceFiles) ∧
    (p ∈ projectPaths →
      (p ∈ getUsedResolvedFiles projectPaths sourceFiles ∧
          p ∉ getUnreferencedFiles projectPaths sourceFiles) ∨
      (p ∈ getUnreferencedFiles projectPaths sourceFiles ∧
          p ∉ getUsedResolvedFiles projectPaths sourceFiles)) := by
  refine ⟨?_, ?_, ?_⟩
  · simp [getUsedResolvedFiles, Finset.mem_filter]
  · simp [getUnreferencedFiles, Finset.mem_filter]
  · intro hp
    by_cases hs : p ∈ sourceFiles
    · exact Or.inl ⟨by simp [getUsedResolvedFiles, Finset.mem_filter, hp, hs],
        by simp [getUnreferencedFiles, Finset.mem_filter, hs]⟩
    · exact Or.inr ⟨by simp [getUnreferencedFiles, Finset.mem_filter, hp, hs],
        by simp [getUsedResolvedFiles, Finset.mem_filter, hs]⟩

/-- Witness for C4 at a concrete partition: project paths
`{"/a.ts", "/b.ts"}`, program source files `{"/a.ts"}`, path `/a.ts`. -/
theorem used_unreferenced_partition_witness :
    ("/a.ts" ∈ ({"/a.ts", "/b.ts"} : Finset String)) ∧
    (("/a.ts" ∈ getUsedResolvedFiles {"/a.ts", "/b.ts"} {"/a.ts"} ↔
        "/a.ts" ∈ ({"/a.ts", "/b.ts"} : Finset String) ∧
          "/a.ts" ∈ ({"/a.ts"} : Finset String)) ∧
      ("/a.ts" ∈ getUnreferencedFiles {"/a.ts", "/b.ts"} {"/a.ts"} ↔
        "/a.ts" ∈ ({"/a.ts", "/b.ts"} : Finset String) ∧
          "/a.ts" ∉ ({"/a.ts"} : Finset String)) ∧
      ("/a.ts" ∈ ({"/a.ts", "/b.ts"} : Finset String) →
        ("/a.ts" ∈ getUsedResolvedFiles {"/a.ts", "/b.ts"} {"/a.ts"} ∧
            "/a.ts" ∉ getUnreferencedFiles {"/a.ts", "/b.ts"} {"/a.ts"}) ∨
        ("/a.ts" ∈ getUnreferencedFiles {"/a.ts", "/b.ts"} {"/a.ts"} ∧
            "/a.ts" ∉ getUsedResolvedFiles {"/a.ts", "/b.ts"} {"/a.ts"}))) :=
  ⟨by decide, used_unreferenced_partition {"/a.ts", "/b.ts"} {"/a.ts"} "/a.ts"⟩

/-- C9: a specifier naming a host built-in module, or one already inside
`node_modules`, makes `resolveModuleName` return `undefined` immediately,
with zero resolution attempts performed. -/
theorem builtin_nodeModules_short_circuit (env : ResolverEnv)
    (vexts : List String) (name containingFile : String)
    (h : env.isBuiltin (env.sanitizeSpecifier name) = true ∨
      env.isInNodeModules name = true) :
    resolveModuleName env vexts name containingFile = (none, 0) := by
  unfold resolveModuleName
  rcases h with h | h <;> simp [h]

/-- Witness for C9: an environment whose builtin predicate accepts
`"node:fs"` short-circuits its resolution. -/
def builtinEnv : ResolverEnv where
  isBuiltin := fun s => strStartsWith s "node:"
  isInNodeModules := fun _ => false
  sanitizeSpecifier := fun s => s
  resolveSync := fun _ _ => none
  tsResolveSys := fun _ _ => none
  tsResolveCustom := fun _ _ => none
  existsSync := fun _ => false
  isInternal := fun _ => false
  dirname := fun _ => "/proj"
  join := fun a b => a ++ "/" ++ b
  isAbsolute := fun _ => true
  extname := fun _ => ""
  toPosix := fun s => s

theorem builtin_nodeModules_short_circuit_witness :
    (builtinEnv.isBuiltin (builtinEnv.sanitizeSpecifier "node:fs") = true ∨
      builtinEnv.isInNodeModules "node:fs" = true) ∧
    resolveModuleName builtinEnv [] "node:fs" "/proj/index.ts" = (none, 0) :=
  ⟨Or.inl (by decide), builtin_nodeModules_short_circuit builtinEnv [] "node:fs"
    "/proj/index.ts" (Or.inl (by decide))⟩

/-- C8: an unresolved import whose specifier is `http:`-prefixed is
silently ignored by `analyzeSourceFile`: it is never added to the
unresolved-imports result, never added to the external set, and never
causes an entry path to be added. -/
theorem http_specifier_ignored (cfg : PrincipalConfig) (filePath : String)
    (acc : AnalyzeAcc) (u : UnresolvedImport)
    (h : strStartsWith u.specifier "http:" = true) :
    processUnresolvedImport cfg filePath acc u = acc ∧
    (processUnresolvedImport cfg filePath acc u).unresolvedImports =
      acc.unresolvedImports ∧
    (processUnresolvedImport cfg filePath acc u).external = acc.external ∧
    (processUnresolvedImport cfg filePath acc u).st = acc.st := by
  have h4 : strStartsWith u.specifier "http" = true :=
    strStartsWith_http_of_httpColon u.specifier h
  refine ⟨?_, ?_, ?_, ?_⟩ <;> simp [processUnresolvedImport, h4]

/-- A configuration template for concrete witnesses of the
`analyzeSourceFile` claims. -/
def witnessConfig : PrincipalConfig where
  isInNodeModules := fun p => strStartsWith p "/proj/node_modules"
  extname := fun p =>
    if strEndsWith p ".d.ts" then ".d.ts"
    else if strEndsWith p ".ts" then ".ts"
    else if strEndsWith p ".css" then ".css"
    else if strEndsWith p ".json" then ".json"
    else ""
  extensions := {".ts", ".tsx", ".js", ".jsx"}
  isGitIgnored := fun p => strStartsWith p "/proj/dist"
  sanitizeSpecifier := fun s => s
  isStartsLikePackageName := fun s =>
    !strStartsWith s "." && !strStartsWith s "/" && !strStartsWith s "@"
      || strStartsWith s "@"
  dirname := fun _ => "/proj/src"
  join := fun a b => a ++ "/" ++ b
  foreignFileExtensions := {".css", ".png", ".svg"}
  resolveModule := fun s _ =>
    if s = "./used" then
      some { resolvedFileName := "/proj/src/used.ts", extension := ".ts",
             isExternalLibraryImport := false, resolvedUsingTsExtension := false }
    else if s = "./gitignored" then
      some { resolvedFileName := "/proj/dist/out.ts", extension := ".ts",
             isExternalLibraryImport := false, resolvedUsingTsExtension := false }
    else none

/-- The empty accumulator used by the witnesses. -/
def emptyAcc : AnalyzeAcc :=
  { st := initialState, external := ∅, unresolvedImports := ∅ }

/-- Witness for C8: the Deno-style specifier
`http://deno.land/std/http/server.ts` leaves the accumulator untouched. -/
theorem http_specifier_ignored_witness :
    strStartsWith "http://deno.land/std/server.ts" "http:" = true ∧
    processUnresolvedImport witnessConfig "/proj/src/index.ts" emptyAcc
        { specifier := "http://deno.land/std/server.ts" } = emptyAcc :=
  ⟨by decide, (http_specifier_ignored witnessConfig "/proj/src/index.ts" emptyAcc
    { specifier := "http://deno.land/std/server.ts" } (by decide)).1⟩

/-- C10: a specifier that fails every resolution step but whose sanitized
form looks like a package name is classified into the external set and is
never reported as an unresolved import (and the path sets are
untouched). -/
theorem package_like_external (cfg : PrincipalConfig) (filePath : String)
    (acc : AnalyzeAcc) (u : UnresolvedImport)
    (hh : strStartsWith u.specifier "http" = false)
    (hr : cfg.resolveModule u.specifier filePath = none)
    (hpkg : cfg.isStartsLikePackageName (cfg.sanitizeSpecifier u.specifier) = true) :
    (processUnresolvedImport cfg filePath acc u).external =
      insert (cfg.sanitizeSpecifier u.specifier) acc.external ∧
    (processUnresolvedImport cfg filePath acc u).unresolvedImports =
      acc.unresolvedImports ∧
    (processUnresolvedImport cfg filePath acc u).st = acc.st := by
  refine ⟨?_, ?_, ?_⟩ <;> simp [processUnresolvedImport, hh, hr, hpkg]

/-- Witness for C10: the uninstalled package specifier `left-pad` lands in
the external set and not in the unresolved-imports set. -/
theorem package_like_external_witness :
    (strStartsWith "left-pad" "http" = false ∧
      witnessConfig.resolveModule "left-pad" "/proj/src/index.ts" = none ∧
      witnessConfig.isStartsLikePackageName
        (witnessConfig.sanitizeSpecifier "left-pad") = true) ∧
    ((processUnresolvedImport witnessConfig "/proj/src/index.ts" emptyAcc
          { specifier := "left-pad" }).external =
        insert (witnessConfig.sanitizeSpecifier "left-pad") emptyAcc.external ∧
      (processUnresolvedImport witnessConfig "/proj/src/index.ts" emptyAcc
          { specifier := "left-pad" }).unresolvedImports =
        emptyAcc.unresolvedImports ∧
      (processUnresolvedImport witnessConfig "/proj/src/index.ts" emptyAcc
          { specifier := "left-pad" }).st = emptyAcc.st) :=
  ⟨⟨by decide, by decide, by decide⟩,
    package_like_external witnessConfig "/proj/src/index.ts" emptyAcc
      { specifier := "left-pad" } (by decide) (by decide) (by decide)⟩

/-- C6: an internal module discovered from a previously-unresolved
specifier is dropped entirely when the ignore predicate accepts its
resolved path; otherwise the resolved path is added as an entry path
marked to skip export analysis (landing in `entryPaths`, `projectPaths`
and `skipExportsAnalysis` whenever it passes the entry-path acceptance
guard). -/
theorem discovered_internal_module_entry (cfg : PrincipalConfig)
    (filePath : String) (acc : AnalyzeAcc) (u : UnresolvedImport)
    (r : ResolvedModuleFull)
    (hh : strStartsWith u.specifier "http" = false)
    (hr : cfg.resolveModule u.specifier filePath = some r)
    (hext : r.isExternalLibraryImport = false) :
    (cfg.isGitIgnored r.resolvedFileName = true →
      processUnresolvedImport cfg filePath acc u = acc) ∧
    (cfg.isGitIgnored r.resolvedFileName = false →
      processUnresolvedImport cfg filePath acc u =
        { acc with st := addEntryPath cfg acc.st r.resolvedFileName true } ∧
      (cfg.isInNodeModules r.resolvedFileName = false →
        cfg.extname r.resolvedFileName ∈ cfg.extensions →
        r.resolvedFileName ∈
            (processUnresolvedImport cfg filePath acc u).st.entryPaths ∧
        r.resolvedFileName ∈
            (processUnresolvedImport cfg filePath acc u).st.projectPaths ∧
        r.resolvedFileName ∈
            (processUnresolvedImport cfg filePath acc u).st.skipExportsAnalysis)) := by
  constructor
  · intro hig
    simp [processUnresolvedImport, hh, hr, hext, hig]
  · intro hig
    constructor
    · simp [processUnresolvedImport, hh, hr, hext, hig]
    · intro hnm hacc
      simp [processUnresolvedImport, hh, hr, hext, hig, addEntryPath,
        hasAcceptedExtension, hnm, hacc]

/-- Witness for C6: the discovered internal file `/proj/src/used.ts` is
added as a skip-exports entry path. -/
theorem discovered_internal_module_entry_witness :
    (strStartsWith "./used" "http" = false ∧
      witnessConfig.resolveModule "./used" "/proj/src/index.ts" =
        some { resolvedFileName := "/proj/src/used.ts", extension := ".ts",
               isExternalLibraryImport := false,
               resolvedUsingTsExtension := false }) ∧
    (witnessConfig.isGitIgnored "/proj/src/used.ts" = false →
      processUnresolvedImport witnessConfig "/proj/src/index.ts" emptyAcc
          { specifier := "./used" } =
        { emptyAcc with
            st := addEntryPath witnessConfig emptyAcc.st "/proj/src/used.ts" true } ∧
      (witnessConfig.isInNodeModules "/proj/src/used.ts" = false →
        witnessConfig.extname "/proj/src/used.ts" ∈ witnessConfig.extensions →
        "/proj/src/used.ts" ∈
            (processUnresolvedImport witnessConfig "/proj/src/index.ts" emptyAcc
              { specifier := "./used" }).st.entryPaths ∧
        "/proj/src/used.ts" ∈
            (processUnresolvedImport witnessConfig "/proj/src/index.ts" emptyAcc
              { specifier := "./used" }).st.projectPaths ∧
        "/proj/src/used.ts" ∈
            (processUnresolvedImport witnessConfig "/proj/src/index.ts" emptyAcc
              { specifier := "./used" }).st.skipExportsAnalysis)) :=
  ⟨⟨by decide, by decide⟩,
    (discovered_internal_module_entry witnessConfig "/proj/src/index.ts" emptyAcc
      { specifier := "./used" }
      { resolvedFileName := "/proj/src/used.ts", extension := ".ts",
        isExternalLibraryImport := false, resolvedUsingTsExtension := false }
      (by decide) (by decide) (by decide)).2⟩

/-- C7: a specifier failing all resolution steps whose extension lies in
the foreign/ignorable extension set is not added to the reported
unresolved-imports set, whereas a failing specifier with no extension at
all is added. -/
theorem failing_specifier_extension_filter (cfg : PrincipalConfig)
    (filePath : String) (acc : AnalyzeAcc) (u : UnresolvedImport)
    (hh : strStartsWith u.specifier "http" = false)
    (hr : cfg.resolveModule u.specifier filePath = none)
    (hpkg : cfg.isStartsLikePackageName (cfg.sanitizeSpecifier u.specifier) = false)
    (hig : cfg.isGitIgnored
        (cfg.join (cfg.dirname filePath) (cfg.sanitizeSpecifier u.specifier)) = false) :
    (cfg.extname (cfg.sanitizeSpecifier u.specifier) ∈ cfg.foreignFileExtensions →
      cfg.extname (cfg.sanitizeSpecifier u.specifier) ≠ "" →
      (processUnresolvedImport cfg filePath acc u).unresolvedImports =
        acc.unresolvedImports) ∧
    (cfg.extname (cfg.sanitizeSpecifier u.specifier) = "" →
      (processUnresolvedImport cfg filePath acc u).unresolvedImports =
        insert u acc.unresolvedImports) := by
  constructor
  · intro hf hne
    simp [processUnresolvedImport, hh, hr, hpkg, hig, hf, hne]
  · intro hemp
    simp [processUnresolvedImport, hh, hr, hpkg, hig, hemp]

/-- Witness for C7: the style-sheet specifier `./styles.css` (a foreign
extension) is filtered out of the unresolved-imports result. -/
theorem failing_specifier_extension_filter_witness :
    (strStartsWith "./styles.css" "http" = false ∧
      witnessConfig.resolveModule "./styles.css" "/proj/src/index.ts" = none ∧
      witnessConfig.isStartsLikePackageName
        (witnessConfig.sanitizeSpecifier "./styles.css") = false ∧
      witnessConfig.extname (witnessConfig.sanitizeSpecifier "./styles.css") ∈
        witnessConfig.foreignFileExtensions) ∧
    ((witnessConfig.extname (witnessConfig.sanitizeSpecifier "./styles.css") ∈
          witnessConfig.foreignFileExtensions →
        witnessConfig.extname (witnessConfig.sanitizeSpecifier "./styles.css") ≠ "" →
        (processUnresolvedImport witnessConfig "/proj/src/index.ts" emptyAcc
            { specifier := "./styles.css" }).unresolvedImports =
          emptyAcc.unresolvedImports) ∧
      (witnessConfig.extname (witnessConfig.sanitizeSpecifier "./styles.css") = "" →
        (processUnresolvedImport witnessConfig "/proj/src/index.ts" emptyAcc
            { specifier := "./styles.css" }).unresolvedImports =
          insert { specifier := "./styles.css" } emptyAcc.unresolvedImports)) :=
  ⟨⟨by decide, by decide, by decide, by decide⟩,
    failing_specifier_extension_filter witnessConfig "/proj/src/index.ts" emptyAcc
      { specifier := "./styles.css" } (by decide) (by decide) (by decide) (by decide)⟩

/-- One path-adding operation preserves `entryPaths ⊆ projectPaths`. -/
lemma applyOp_subset (cfg : PrincipalConfig) (st : PrincipalState) (op : GraphOp)
    (hinv : st.entryPaths ⊆ st.projectPaths) :
    (applyOp cfg st op).entryPaths ⊆ (applyOp cfg st op).projectPaths := by
  cases op with
  | addEntry f skip =>
      simp only [applyOp, addEntryPath]
      split
      · exact Finset.insert_subset_insert f hinv
      · exact hinv
  | addProject f =>
      simp only [applyOp, addProjectPath]
      split
      · exact hinv.trans (Finset.subset_insert f st.projectPaths)
      · exact hinv

/-- A path rejected by the acceptance guard (inside `node_modules` or
with an extension outside the accepted set) is never inserted by a single
path-adding operation. -/
lemma applyOp_not_added (cfg : PrincipalConfig) (st : PrincipalState) (op : GraphOp)
    (p : String)
    (hbad : cfg.isInNodeModules p = true ∨ cfg.extname p ∉ cfg.extensions) :
    (p ∉ st.entryPaths → p ∉ (applyOp cfg st op).entryPaths) ∧
    (p ∉ st.projectPaths → p ∉ (applyOp cfg st op).projectPaths) := by
  have hne : ∀ f, (!cfg.isInNodeModules f && hasAcceptedExtension cfg f) = true →
      p ≠ f := by
    intro f hf hpf
    subst hpf
    rw [Bool.and_eq_true, Bool.not_eq_true'] at hf
    rcases hbad with hb | hb
    · rw [hf.1] at hb
      exact Bool.false_ne_true hb
    · exact hb (by
        have h2 := hf.2
        unfold hasAcceptedExtension at h2
        exact of_decide_eq_true h2)
  cases op with
  | addEntry f skip =>
      simp only [applyOp, addEntryPath]
      split
      case isTrue hg =>
        have hpf := hne f hg
        constructor
        · intro h hmem
          rcases Finset.mem_insert.mp hmem with heq | hmem'
          · exact hpf heq
          · exact h hmem'
        · intro h hmem
          rcases Finset.mem_insert.mp hmem with heq | hmem'
          · exact hpf heq
          · exact h hmem'
      case isFalse hg => exact ⟨fun h => h, fun h => h⟩
  | addProject f =>
      simp only [applyOp, addProjectPath]
      split
      case isTrue hg =>
        have hpf := hne f hg
        refine ⟨fun h => h, ?_⟩
        intro h hmem
        rcases Finset.mem_insert.mp hmem with heq | hmem'
        · exact hpf heq
        · exact h hmem'
      case isFalse hg => exact ⟨fun h => h, fun h => h⟩

/-- C5: after every sequence of `addEntryPath` and `addProjectPath`
operations from a state satisfying it, `entryPaths ⊆ projectPaths` still
holds; and a path inside `node_modules` or with an extension outside the
accepted set is never added to either set. -/
theorem entryPaths_subset_invariant (cfg : PrincipalConfig) (ops : List GraphOp)
    (st : PrincipalState) (p : String)
    (hinv : st.entryPaths ⊆ st.projectPaths)
    (hbad : cfg.isInNodeModules p = true ∨ cfg.extname p ∉ cfg.extensions) :
    (applyOps cfg st ops).entryPaths ⊆ (applyOps cfg st ops).projectPaths ∧
    (p ∉ st.entryPaths → p ∉ (applyOps cfg st ops).entryPaths) ∧
    (p ∉ st.projectPaths → p ∉ (applyOps cfg st ops).projectPaths) := by
  induction ops generalizing st with
  | nil => exact ⟨hinv, fun h => h, fun h => h⟩
  | cons op rest ih =>
      have hna := applyOp_not_added cfg st op p hbad
      have hrest := ih (applyOp cfg st op) (applyOp_subset cfg st op hinv)
      exact ⟨hrest.1, fun h => hrest.2.1 (hna.1 h), fun h => hrest.2.2 (hna.2 h)⟩

/-- Witness for C5: starting from the empty state, even operations that
try to add the foreign-extension path `/proj/src/style.css` leave both
sets without it, and the subset invariant survives. -/
theorem entryPaths_subset_invariant_witness :
    (initialState.entryPaths ⊆ initialState.projectPaths ∧
      (witnessConfig.isInNodeModules "/proj/src/style.css" = true ∨
        witnessConfig.extname "/proj/src/style.css" ∉ witnessConfig.extensions)) ∧
    ((applyOps witnessConfig initialState
        [GraphOp.addEntry "/proj/src/index.ts" false,
         GraphOp.addEntry "/proj/src/style.css" true,
         GraphOp.addProject "/proj/src/style.css"]).entryPaths ⊆
      (applyOps witnessConfig initialState
        [GraphOp.addEntry "/proj/src/index.ts" false,
         GraphOp.addEntry "/proj/src/style.css" true,
         GraphOp.addProject "/proj/src/style.css"]).projectPaths ∧
     ("/proj/src/style.css" ∉ initialState.entryPaths →
       "/proj/src/style.css" ∉ (applyOps witnessConfig initialState
         [GraphOp.addEntry "/proj/src/index.ts" false,
          GraphOp.addEntry "/proj/src/style.css" true,
          GraphOp.addProject "/proj/src/style.css"]).entryPaths) ∧
     ("/proj/src/style.css" ∉ initialState.projectPaths →
       "/proj/src/style.css" ∉ (applyOps witnessConfig initialState
         [GraphOp.addEntry "/proj/src/index.ts" false,
          GraphOp.addEntry "/proj/src/style.css" true,
          GraphOp.addProject "/proj/src/style.css"]).projectPaths)) :=
  ⟨⟨by decide, Or.inr (by decide)⟩,
    entryPaths_subset_invariant witnessConfig
      [GraphOp.addEntry "/proj/src/index.ts" false,
       GraphOp.addEntry "/proj/src/style.css" true,
       GraphOp.addProject "/proj/src/style.css"]
      initialState "/proj/src/style.css" (by decide) (Or.inr (by decide))⟩

/-- The oracle of a program in which `findReferences` yields no
referenced symbols at all (`undefined` for every query): every export has
zero references. -/
def noRefsOracle : OracleEnv where
  findReferences := fun _ _ => none

/-- C1, evaluated at the failing input: an export carrying the `@public`
tag with zero references.  `hasReferences` returns `false` — it reports
the tagged export as having no references, so the caller flags it unused,
contrary to the claim that such an export must always be treated as used.
`findUnusedMembers`, by contrast, conforms: a `@public` member is never
part of the returned unused subset. -/
theorem public_tag_export_divergence :
    hasReferences noRefsOracle "/proj/src/a.ts"
        { pos := 0, jsDocTags := ["@public"] } = false ∧
    findUnusedMembers noRefsOracle "/proj/src/a.ts"
        [{ pos := 0, jsDocTags := ["@public"] }] = [] :=
  ⟨rfl, rfl⟩

/-- The resolver environment for the C2 counterexample: the compiler
resolves `./mod` to the internal declaration file `/proj/src/mod.d.mts`,
and no file at all exists on disk. -/
def c2Env : ResolverEnv where
  isBuiltin := fun _ => false
  isInNodeModules := fun _ => false
  sanitizeSpecifier := fun s => s
  resolveSync := fun _ _ => none
  tsResolveSys := fun s _ =>
    if s = "./mod" then
      some { resolvedFileName := "/proj/src/mod.d.mts", extension := ".d.mts",
             isExternalLibraryImport := false, resolvedUsingTsExtension := false }
    else none
  tsResolveCustom := fun _ _ => none
  existsSync := fun _ => false
  isInternal := fun _ => true
  dirname := fun _ => "/proj/src"
  join := fun a b => a ++ "/" ++ b
  isAbsolute := fun _ => true
  extname := fun _ => ""
  toPosix := fun s => s

/-- Counterexample to C2 as stated: compiler resolution yields the
internal declaration file `/proj/src/mod.d.mts`, no implementation file
exists on disk (`existsSync` is `false` for the probed `.mjs` sibling),
yet `resolveModuleName` returns `/proj/src/mod.mjs` — not the declaration
file itself. -/
theorem declaration_file_resolution_counterexample :
    c2Env.tsResolveSys "./mod" "/proj/src/index.ts" =
      some { resolvedFileName := "/proj/src/mod.d.mts", extension := ".d.mts",
             isExternalLibraryImport := false, resolvedUsingTsExtension := false } ∧
    c2Env.isInternal "/proj/src/mod.d.mts" = true ∧
    c2Env.existsSync "/proj/src/mod.mjs" = false ∧
    (resolveModuleName c2Env [] "./mod" "/proj/src/index.ts").1 =
      some { resolvedFileName := "/proj/src/mod.mjs", extension := ".mjs",
             isExternalLibraryImport := false, resolvedUsingTsExtension := false } ∧
    ("/proj/src/mod.mjs" : String) ≠ "/proj/src/mod.d.mts" := by
  refine ⟨rfl, rfl, rfl, ?_, by decide⟩
  decide

/-- C2 (amended): when the compiler resolution step yields an internal
type-declaration file, `resolveModuleName` behaves as follows: for a
`.d.mts` (resp. `.d.cts`) declaration it returns the `.mjs` (resp.
`.cjs`) sibling unconditionally, without probing the disk; for a `.d.ts`
declaration it strips the declaration suffix and, when the stripped base
carries a registered non-native extension, maps the base back to its real
file path, and otherwise probes the implementation extensions `.js` then
`.jsx`, returning the probed implementation file when one exists (the
`.jsx` file when only the `.jsx` probe succeeds) and keeping the
declaration file as the resolution target when neither exists. -/
theorem declaration_file_resolution_amended (env : ResolverEnv)
    (vexts : List String) (name f : String) (m : ResolvedModuleFull)
    (hb : env.isBuiltin (env.sanitizeSpecifier name) = false)
    (hnm : env.isInNodeModules name = false)
    (hrs : env.resolveSync (env.sanitizeSpecifier name) (env.dirname f) = none)
    (hts : env.tsResolveSys (env.sanitizeSpecifier name) f = some m)
    (hint : env.isInternal m.resolvedFileName = true) :
    (m.extension = ".d.mts" →
      (resolveModuleName env vexts name f).1 =
        some { resolvedFileName := replaceSuffix m.resolvedFileName ".d.mts" ".mjs",
               extension := ".mjs", isExternalLibraryImport := false,
               resolvedUsingTsExtension := false }) ∧
    (m.extension = ".d.cts" →
      (resolveModuleName env vexts name f).1 =
        some { resolvedFileName := replaceSuffix m.resolvedFileName ".d.cts" ".cjs",
               extension := ".cjs", isExternalLibraryImport := false,
               resolvedUsingTsExtension := false }) ∧
    (m.extension = ".d.ts" →
      (¬env.extname (replaceSuffix m.resolvedFileName ".d.ts" "") = "" →
        env.extname (replaceSuffix m.resolvedFileName ".d.ts" "") ∈ vexts →
        (resolveModuleName env vexts name f).1 =
          some { resolvedFileName :=
                   ensureRealFilePath (replaceSuffix m.resolvedFileName ".d.ts" "")
                     vexts,
                 extension := ".js", isExternalLibraryImport := false,
                 resolvedUsingTsExtension := false }) ∧
      ((env.extname (replaceSuffix m.resolvedFileName ".d.ts" "") = "" ∨
          vexts.contains (env.extname (replaceSuffix m.resolvedFileName ".d.ts" "")) =
            false) →
        (∀ mod,
          fileExists env (replaceSuffix m.resolvedFileName ".d.ts" "" ++ ".js") f =
            some mod →
          (resolveModuleName env vexts name f).1 = some mod) ∧
        (∀ mod,
          fileExists env (replaceSuffix m.resolvedFileName ".d.ts" "" ++ ".js") f =
            none →
          fileExists env (replaceSuffix m.resolvedFileName ".d.ts" "" ++ ".jsx") f =
            some mod →
          (resolveModuleName env vexts name f).1 = some mod) ∧
        (fileExists env (replaceSuffix m.resolvedFileName ".d.ts" "" ++ ".js") f =
            none →
          fileExists env (replaceSuffix m.resolvedFileName ".d.ts" "" ++ ".jsx") f =
            none →
          (resolveModuleName env vexts name f).1 = some m))) := by
  refine ⟨?_, ?_, ?_⟩
  · intro hm
    simp [resolveModuleName, hb, hnm, hrs, hts, hint, isDeclarationFileExtension, hm]
  · intro hm
    simp [resolveModuleName, hb, hnm, hrs, hts, hint, isDeclarationFileExtension, hm]
  · intro hm
    constructor
    · intro hne hmem
      simp [resolveModuleName, hb, hnm, hrs, hts, hint, isDeclarationFileExtension,
        hm, hne, hmem]
    · intro hv
      have hguard :
          ¬(¬env.extname (replaceSuffix m.resolvedFileName ".d.ts" "") = "" ∧
            env.extname (replaceSuffix m.resolvedFileName ".d.ts" "") ∈ vexts) := by
        rcases hv with hv | hv
        · exact fun hc => hc.1 hv
        · have hv' : env.extname (replaceSuffix m.resolvedFileName ".d.ts" "") ∉ vexts := by
            simpa using hv
          exact fun hc => hv' hc.2
      refine ⟨?_, ?_, ?_⟩
      · intro mod hjs
        simp [resolveModuleName, hb, hnm, hrs, hts, hint, isDeclarationFileExtension,
          hm, hguard, hjs]
      · intro mod hjs hjsx
        simp [resolveModuleName, hb, hnm, hrs, hts, hint, isDeclarationFileExtension,
          hm, hguard, hjs, hjsx]
      · intro hjs hjsx
        simp [resolveModuleName, hb, hnm, hrs, hts, hint, isDeclarationFileExtension,
          hm, hguard, hjs, hjsx]

/-- The resolver environment for the C2 witness: `./lib` resolves to the
internal declaration `/proj/src/lib.d.ts` and only `/proj/src/lib.jsx`
exists on disk; `./keep` resolves to `/proj/src/keep.d.ts` with no
implementation file at all; `./comp` resolves to
`/proj/src/comp.vue.d.ts`, whose stripped base carries the registered
non-native extension `.vue`. -/
def c2WitnessEnv : ResolverEnv where
  isBuiltin := fun _ => false
  isInNodeModules := fun _ => false
  sanitizeSpecifier := fun s => s
  resolveSync := fun _ _ => none
  tsResolveSys := fun s _ =>
    if s = "./lib" then
      some { resolvedFileName := "/proj/src/lib.d.ts", extension := ".d.ts",
             isExternalLibraryImport := false, resolvedUsingTsExtension := false }
    else if s = "./keep" then
      some { resolvedFileName := "/proj/src/keep.d.ts", extension := ".d.ts",
             isExternalLibraryImport := false, resolvedUsingTsExtension := false }
    else if s = "./comp" then
      some { resolvedFileName := "/proj/src/comp.vue.d.ts", extension := ".d.ts",
             isExternalLibraryImport := false, resolvedUsingTsExtension := false }
    else none
  tsResolveCustom := fun _ _ => none
  existsSync := fun p => p == "/proj/src/lib.jsx"
  isInternal := fun _ => true
  dirname := fun _ => "/proj/src"
  join := fun a b => a ++ "/" ++ b
  isAbsolute := fun _ => true
  extname := fun p => if strEndsWith p ".vue" then ".vue" else ""
  toPosix := fun s => s

/-- Witness for C2 (amended), with the registered non-native extension
list `[".vue"]`: `./comp` maps the stripped `.vue` base back to its real
file path, `./lib` resolves to the probed `.jsx` implementation file
(the `.js` probe having failed), and `./keep`, with no implementation
file on disk, keeps the declaration file as the resolution target. -/
theorem declaration_file_resolution_amended_witness :
    (c2WitnessEnv.resolveSync "./lib" "/proj/src" = none ∧
      c2WitnessEnv.tsResolveSys "./lib" "/proj/src/index.ts" =
        some { resolvedFileName := "/proj/src/lib.d.ts", extension := ".d.ts",
               isExternalLibraryImport := false,
               resolvedUsingTsExtension := false } ∧
      c2WitnessEnv.tsResolveSys "./keep" "/proj/src/index.ts" =
        some { resolvedFileName := "/proj/src/keep.d.ts", extension := ".d.ts",
               isExternalLibraryImport := false,
               resolvedUsingTsExtension := false } ∧
      c2WitnessEnv.tsResolveSys "./comp" "/proj/src/index.ts" =
        some { resolvedFileName := "/proj/src/comp.vue.d.ts", extension := ".d.ts",
               isExternalLibraryImport := false,
               resolvedUsingTsExtension := false } ∧
      fileExists c2WitnessEnv "/proj/src/lib.js" "/proj/src/index.ts" = none ∧
      fileExists c2WitnessEnv "/proj/src/lib.jsx" "/proj/src/index.ts" =
        some { resolvedFileName := "/proj/src/lib.jsx", extension := "",
               isExternalLibraryImport := false,
               resolvedUsingTsExtension := false } ∧
      fileExists c2WitnessEnv "/proj/src/keep.js" "/proj/src/index.ts" = none ∧
      fileExists c2WitnessEnv "/proj/src/keep.jsx" "/proj/src/index.ts" = none) ∧
    (resolveModuleName c2WitnessEnv [".vue"] "./comp" "/proj/src/index.ts").1 =
      some { resolvedFileName :=
               ensureRealFilePath
                 (replaceSuffix "/proj/src/comp.vue.d.ts" ".d.ts" "") [".vue"],
             extension := ".js", isExternalLibraryImport := false,
             resolvedUsingTsExtension := false } ∧
    (resolveModuleName c2WitnessEnv [".vue"] "./lib" "/proj/src/index.ts").1 =
      some { resolvedFileName := "/proj/src/lib.jsx", extension := "",
             isExternalLibraryImport := false, resolvedUsingTsExtension := false } ∧
    (resolveModuleName c2WitnessEnv [".vue"] "./keep" "/proj/src/index.ts").1 =
      some { resolvedFileName := "/proj/src/keep.d.ts", extension := ".d.ts",
             isExternalLibraryImport := false, resolvedUsingTsExtension := false } :=
  ⟨⟨by decide, by decide, by decide, by decide, by decide, by decide, by decide,
      by decide⟩,
    ((declaration_file_resolution_amended c2WitnessEnv [".vue"] "./comp"
        "/proj/src/index.ts"
        { resolvedFileName := "/proj/src/comp.vue.d.ts", extension := ".d.ts",
          isExternalLibraryImport := false, resolvedUsingTsExtension := false }
        (by decide) (by decide) (by decide) (by decide) (by decide)).2.2 rfl).1
      (by decide) (by decide),
    (((declaration_file_resolution_amended c2WitnessEnv [".vue"] "./lib"
        "/proj/src/index.ts"
        { resolvedFileName := "/proj/src/lib.d.ts", extension := ".d.ts",
          isExternalLibraryImport := false, resolvedUsingTsExtension := false }
        (by decide) (by decide) (by decide) (by decide) (by decide)).2.2 rfl).2
        (Or.inl (by decide))).2.1
      { resolvedFileName := "/proj/src/lib.jsx", extension := "",
        isExternalLibraryImport := false, resolvedUsingTsExtension := false }
      (by decide) (by decide),
    (((declaration_file_resolution_amended c2WitnessEnv [".vue"] "./keep"
        "/proj/src/index.ts"
        { resolvedFileName := "/proj/src/keep.d.ts", extension := ".d.ts",
          isExternalLibraryImport := false, resolvedUsingTsExtension := false }
        (by decide) (by decide) (by decide) (by decide) (by decide)).2.2 rfl).2
        (Or.inl (by decide))).2.2
      (by decide) (by decide)⟩

end Knip
